import Mathlib

/-!
# Verification of the 2D wave-equation solver (`Wave2D.py`)

Shallow embedding of the solver in `src/Wave2D.py`:

* class `Wave2D` (homogeneous Dirichlet boundary) and its subclass
  `Wave2D_Neumann` become the two values of `Variant`;
* the mutable attributes of a solver instance (`self.cfl`, `self.c`,
  `self.dx`, `self.dy`, `self.xij`, `self.yij`, `self.mx`, `self.my`,
  `self.unm1`, `self.un`, `self.unp1`) become the record `State`, and every
  method is a function threading that record;
* numpy arrays of shape `(N+1, N+1)` become total functions `ℕ → ℕ → ℝ`
  together with the stored mesh size `State.n` (the array shape);
  machine floats become exact reals;
* the sparse matrices built by `D2` have integer entries and are embedded
  as `ℕ → ℕ → ℤ`, meaningful on indices below `(N+1)*(N+1)`;
* Python exceptions become `Except PyError`.
-/

open Real

namespace WaveSpec

/-- The two solver classes: `Wave2D` (Dirichlet) and `Wave2D_Neumann`. -/
inductive Variant where
  | dirichlet
  | neumann
deriving DecidableEq

/-- Entry `(a, b)` of the 1D operator built in `Wave2D.D2`:
`sparse.diags([ones, -2*ones, ones], offsets=[-1, 0, 1], shape=(N+1, N+1))`. -/
def dx2Dir (a b : ℕ) : ℤ :=
  if a = b then -2 else if b = a + 1 ∨ a = b + 1 then 1 else 0

/-- Entry `(a, b)` of the 1D operator built in `Wave2D_Neumann.D2`:
the Dirichlet operator with the first and last rows overwritten by
`Dx2[0,0] = -2; Dx2[0,1] = 2; Dx2[-1,-1] = -2; Dx2[-1,-2] = 2`
(meaningful for `N ≥ 1`, the only sizes at which the Python code runs). -/
def dx2Neu (N : ℕ) (a b : ℕ) : ℤ :=
  if a = 0 then (if b = 0 then -2 else if b = 1 then 2 else 0)
  else if a = N then (if b = N then -2 else if b = N - 1 then 2 else 0)
  else dx2Dir a b

/-- The 1D second-difference operator of the given variant. -/
def Dx2 : Variant → ℕ → ℕ → ℕ → ℤ
  | .dirichlet, _ => dx2Dir
  | .neumann, N => dx2Neu N

/-- Entry `(a, b)` of `sparse.eye(N+1)` (identity; in-range indices only). -/
def eye (a b : ℕ) : ℤ := if a = b then 1 else 0

/-- Entry `(r, c)` of `sparse.kron(A, B)` when `B` has square blocks of size
`n`: `kron(A, B)[r, c] = A[r / n, c / n] * B[r % n, c % n]`. -/
def kron (n : ℕ) (A B : ℕ → ℕ → ℤ) (r c : ℕ) : ℤ :=
  A (r / n) (c / n) * B (r % n) (c % n)

/-- The 2D discrete Laplacian returned by `D2`:
`sparse.kron(I, Dx2) + sparse.kron(Dx2, I)` with blocks of size `N+1`.
Meaningful on indices `r, c < (N+1)*(N+1)`. -/
def D2 (v : Variant) (N : ℕ) (r c : ℕ) : ℤ :=
  kron (N + 1) eye (Dx2 v N) r c + kron (N + 1) (Dx2 v N) eye r c

/-- A 2D grid function.  A numpy array of shape `(N+1, N+1)` is embedded as a
total function; the shape itself is kept in `State.n`. -/
abbrev Field := ℕ → ℕ → ℝ

/-- Python exceptions that the solver can raise. -/
inductive PyError where
  | valueError
  | zeroDivisionError
  | indexError
deriving DecidableEq

/-- The attributes of a solver instance (`self.cfl`, `self.c`, `self.dx`,
`self.dy`, `self.xij`, `self.yij`, `self.mx`, `self.my`, `self.unm1`,
`self.un`, `self.unp1`); `n` records the mesh resolution `N` that fixed the
shape `(N+1, N+1)` of the arrays built by `create_mesh`. -/
@[ext]
structure State where
  cfl : ℝ
  c : ℝ
  dx : ℝ
  dy : ℝ
  n : ℕ
  xij : Field
  yij : Field
  mx : ℤ
  my : ℤ
  unm1 : Field
  un : Field
  unp1 : Field

/-- A freshly constructed instance (all attributes unset; the values are
irrelevant junk, used only to show that results do not depend on them). -/
def blankState : State where
  cfl := 0
  c := 0
  dx := 0
  dy := 0
  n := 0
  xij := fun _ _ => 0
  yij := fun _ _ => 0
  mx := 0
  my := 0
  unm1 := fun _ _ => 0
  un := fun _ _ => 0
  unp1 := fun _ _ => 0

/-- Method `Wave2D.create_mesh`: `np.linspace(0, 1, N+1)` in both directions,
`dx = dy = 1/N`, and the `meshgrid` with `indexing="ij"`
(so `xij[i][j] = i/N` and `yij[i][j] = j/N`). -/
noncomputable def create_mesh (s : State) (N : ℕ) : State :=
  { s with
    dx := 1 / (N : ℝ)
    dy := 1 / (N : ℝ)
    n := N
    xij := fun i _ => (i : ℝ) / (N : ℝ)
    yij := fun _ j => (j : ℝ) / (N : ℝ) }

/-- Property `Wave2D.w`: the dispersion coefficient
`self.c * np.pi * np.sqrt(self.mx**2 + self.my**2)`. -/
noncomputable def w (s : State) : ℝ :=
  s.c * π * Real.sqrt ((s.mx : ℝ) ^ 2 + (s.my : ℝ) ^ 2)

/-- Method `ue(mx, my)` of each class, as a function of the point `(X, Y)` and the
time `T`.  The frequency comes from `self.w`, hence from the *state's*
`mx`, `my` and `c`; the spatial factors use the arguments `mx`, `my`. -/
noncomputable def ue (v : Variant) (s : State) (mx my : ℤ) (X Y T : ℝ) : ℝ :=
  match v with
  | .dirichlet =>
      Real.sin ((mx : ℝ) * π * X) * Real.sin ((my : ℝ) * π * Y) * Real.cos (w s * T)
  | .neumann =>
      Real.cos ((mx : ℝ) * π * X) * Real.cos ((my : ℝ) * π * Y) * Real.cos (w s * T)

/-- Property `Wave2D.dt`: `self.cfl * min(self.dx, self.dy) / self.c`. -/
noncomputable def dt (s : State) : ℝ := s.cfl * min s.dx s.dy / s.c

/-- Method `Wave2D.initialize`: create the mesh, store the mode numbers, then set
`self.unm1 = ue(xij, yij, -dt)` and `self.un = ue(xij, yij, 0)`. -/
noncomputable def initSolution (v : Variant) (s : State) (N : ℕ) (mx my : ℤ) : State :=
  let s1 := create_mesh s N
  let s2 := { s1 with mx := mx, my := my }
  { s2 with
    unm1 := fun i j => ue v s2 mx my (s2.xij i j) (s2.yij i j) (-(dt s2))
    un := fun i j => ue v s2 mx my (s2.xij i j) (s2.yij i j) 0 }

/-- Method `Wave2D.l2_error`: `np.sqrt(np.mean((u - ue_vals)**2))`, the mean taken
over the whole `(n+1) × (n+1)` array. -/
noncomputable def l2_error (v : Variant) (s : State) (u : Field) (t0 : ℝ) : ℝ :=
  Real.sqrt
    ((∑ i ∈ Finset.range (s.n + 1), ∑ j ∈ Finset.range (s.n + 1),
        (u i j - ue v s s.mx s.my (s.xij i j) (s.yij i j) t0) ^ 2) /
      (((s.n : ℝ) + 1) * ((s.n : ℝ) + 1)))

/-- Method `apply_bcs`: `Wave2D` zeroes the four edges of `self.unp1`
(`[0, :]`, `[-1, :]`, `[:, 0]`, `[:, -1]`); `Wave2D_Neumann` is a no-op. -/
def apply_bcs : Variant → State → State
  | .dirichlet, s =>
      { s with unp1 := fun i j =>
          if i = 0 ∨ i = s.n ∨ j = 0 ∨ j = s.n then 0 else s.unp1 i j }
  | .neumann, s => s

/-- The product `(D @ u.reshape(-1)).reshape(u.shape)` for an `(N+1) × (N+1)` array `u`
flattened in row-major order (flat index `i*(N+1)+j`). -/
noncomputable def lapApply (D : ℕ → ℕ → ℤ) (N : ℕ) (u : Field) : Field :=
  fun i j => ∑ k ∈ Finset.range ((N + 1) * (N + 1)),
    (D (i * (N + 1) + j) k : ℝ) * u (k / (N + 1)) (k % (N + 1))

/-- The body of the time loop of `Wave2D.__call__` without the bookkeeping:
`unp1 = 2*un - unm1 + C**2 * lap_un` (with `C = self.cfl`), then
`apply_bcs()`, then the rotation `unm1, un = un, unp1`. -/
noncomputable def stepOnce (v : Variant) (D : ℕ → ℕ → ℤ) (s : State) : State :=
  let lap_un := lapApply D s.n s.un
  let s1 := { s with unp1 :=
      fun i j => 2 * s.un i j - s.unm1 i j + s.cfl ^ 2 * lap_un i j }
  let s2 := apply_bcs v s1
  { s2 with unm1 := s2.un, un := s2.unp1 }

/-- One iteration of `for n in range(1, Nt+1)` in `Wave2D.__call__`,
acting on the accumulator `(state, data, errs)`:
step, then `if data is not None and n % store_data == 0: data[n] = un`,
then `if errs is not None: errs.append(l2_error(un, n*dt))`. -/
noncomputable def loopBody (v : Variant) (D : ℕ → ℕ → ℤ) (sd : ℤ)
    (acc : State × List (ℕ × Field) × List ℝ) (n : ℕ) :
    State × List (ℕ × Field) × List ℝ :=
  let s := stepOnce v D acc.1
  let data := if 0 < sd ∧ (n : ℤ) % sd = 0 then acc.2.1 ++ [(n, s.un)] else acc.2.1
  let errs := if sd = -1 then acc.2.2 ++ [l2_error v s s.un ((n : ℝ) * dt s)] else acc.2.2
  (s, data, errs)

/-- What `Wave2D.__call__` returns: either the snapshot dictionary (with
keys in insertion order) or the pair `(h, np.array(errs))`; `errs` may be
the `None` that arises for a `store_data` that is neither positive nor
`-1`. -/
inductive Output where
  | snaps (d : List (ℕ × Field))
  | errPair (h : ℝ) (errs : Option (List ℝ))

/-- Method `Wave2D.__call__(N, Nt, cfl, c, mx, my, store_data)`.  The error cases
reproduce the Python failures: `np.linspace` rejects a negative number of
samples (`N ≤ -2`), `dx = 1.0/N` divides by zero (`N = 0`), and
`sparse.diags` rejects the `0 × 0` shape that `N = -1` produces in `D2`
(after `initialize` has already run on the empty mesh). -/
noncomputable def call (v : Variant) (s : State) (N Nt : ℤ) (cfl c : ℝ)
    (mx my : ℤ) (sd : ℤ) : Except PyError (State × Output) :=
  if N + 1 < 0 then .error .valueError
  else if N = 0 then .error .zeroDivisionError
  else if N < 0 then .error .valueError
  else
    let s0 : State := { s with cfl := cfl, c := c }
    let s1 := initSolution v s0 N.toNat mx my
    let D := D2 v N.toNat
    let start : State × List (ℕ × Field) × List ℝ :=
      (s1, (if 0 < sd then [(0, s1.unm1)] else []), [])
    let res := (List.range' 1 Nt.toNat).foldl (loopBody v D sd) start
    if 0 < sd then .ok (res.1, .snaps res.2.1)
    else .ok (res.1, .errPair res.1.dx (if sd = -1 then some res.2.2 else none))

/-- The state after `n` passes through the loop body, starting from the
freshly initialized state. -/
noncomputable def states (v : Variant) (D : ℕ → ℕ → ℤ) (s1 : State) : ℕ → State
  | 0 => s1
  | n + 1 => stepOnce v D (states v D s1 n)

/-- The loop of `Wave2D.convergence_rates`: at each of `k` remaining levels
run `self(N0, Nt, cfl=cfl, mx=mx, my=my, store_data=-1)` (so with the
default wave speed `c = 1.0`), append `err[-1]` to `E` and `dx` to `h`,
then double `N0` and `Nt`.  `err[-1]` on an empty (or `None`) error array
raises `IndexError`; a snapshot dictionary cannot occur for
`store_data=-1` and is mapped to an error as tuple unpacking would be. -/
noncomputable def convLoop (v : Variant) :
    ℕ → State → ℤ → ℤ → ℝ → ℤ → ℤ → List ℝ → List ℝ →
    Except PyError (State × List ℝ × List ℝ)
  | 0, s, _, _, _, _, _, E, h => .ok (s, E, h)
  | k + 1, s, N0, Nt, cfl, mx, my, E, h =>
    match call v s N0 Nt cfl 1 mx my (-1) with
    | .error e => .error e
    | .ok (_, .snaps _) => .error .valueError
    | .ok (_, .errPair _ none) => .error .indexError
    | .ok (s', .errPair dx (some errs)) =>
      match errs.getLast? with
      | none => .error .indexError
      | some eLast => convLoop v k s' (N0 * 2) (Nt * 2) cfl mx my (E ++ [eLast]) (h ++ [dx])

/-- Method `Wave2D.convergence_rates(m, cfl, Nt, mx, my)`.  The Python loop
variable shadows the parameter `m`, so after the loop `m` holds `m - 1`
(or the original `0` when the loop never ran), and the list of orders is
`[log(E[i-1]/E[i])/log(h[i-1]/h[i]) for i in range(1, m+1)]`. -/
noncomputable def convergence_rates (v : Variant) (s : State) (m : ℕ) (cfl : ℝ)
    (Nt : ℤ) (mx my : ℤ) : Except PyError (State × (List ℝ × List ℝ × List ℝ)) :=
  match convLoop v m s 8 Nt cfl mx my [] [] with
  | .error e => .error e
  | .ok (s', E, h) =>
    let mFinal := if m = 0 then m else m - 1
    let r := (List.range' 1 mFinal).map (fun i =>
      Real.log (E.getD (i - 1) 0 / E.getD i 0) / Real.log (h.getD (i - 1) 0 / h.getD i 0))
    .ok (s', (r, E, h))

/-- Two instance states that agree on every attribute except `unp1` (the
only attribute `__call__` can read before writing). -/
def Agree (s t : State) : Prop :=
  s.cfl = t.cfl ∧ s.c = t.c ∧ s.dx = t.dx ∧ s.dy = t.dy ∧ s.n = t.n ∧
  s.xij = t.xij ∧ s.yij = t.yij ∧ s.mx = t.mx ∧ s.my = t.my ∧
  s.unm1 = t.unm1 ∧ s.un = t.un

/-- The error list accumulated by an error-mode run (`store_data == -1`):
entry `n` (1-based) is the L2 error of the post-step field against the
exact solution at time `n*dt`. -/
noncomputable def errListOf (v : Variant) (D : ℕ → ℕ → ℤ) (s1 : State)
    (Nt : ℕ) : List ℝ :=
  (List.range' 1 Nt).map (fun n =>
    l2_error v (states v D s1 n) ((states v D s1 n).un)
      ((n : ℝ) * dt (states v D s1 n)))

/-- The snapshot list accumulated by a snapshot-mode run: step `0` holds
`unm1`, and step `n ∈ [1, Nt]` is stored iff `n % store_data == 0`. -/
noncomputable def snapListOf (v : Variant) (D : ℕ → ℕ → ℤ) (s1 : State)
    (sd : ℤ) (Nt : ℕ) : List (ℕ × Field) :=
  (0, s1.unm1) ::
    ((List.range' 1 Nt).filter
        (fun (n : ℕ) => decide (0 < sd ∧ (n : ℤ) % sd = 0))).map
      (fun n => (n, (states v D s1 n).un))

/-- The error list of an error-mode run started on a fresh instance with
the `convergence_rates` defaults (`c = 1.0`); by `call_output_indep` every
error-mode run with these parameters produces this list. -/
noncomputable def runErrs (v : Variant) (cfl : ℝ) (N Nt : ℤ) (mx my : ℤ) :
    List ℝ :=
  errListOf v (D2 v N.toNat)
    (initSolution v { blankState with cfl := cfl, c := 1 } N.toNat mx my) Nt.toNat

/-- The final-step L2 error (`err[-1]`) of such a run. -/
noncomputable def runLastErr (v : Variant) (cfl : ℝ) (N Nt : ℤ) (mx my : ℤ) : ℝ :=
  (runErrs v cfl N Nt mx my).getLast?.getD 0

/-- Whether a call returned normally (no Python exception). -/
def resultIsOk (r : Except PyError (State × Output)) : Bool :=
  match r with
  | .ok _ => true
  | .error _ => false

/-- The error-array component of a returned pair, when the call returned
one (`some (some errs)`: a real error list; `some none`: the
`np.array(None)` case; `none`: no pair was returned). -/
def returnedErrs : Except PyError (State × Output) → Option (Option (List ℝ))
  | .ok (_, .errPair _ e) => some e
  | _ => none

lemma dx2Dir_symm (a b : ℕ) : dx2Dir a b = dx2Dir b a := by
  unfold dx2Dir; split_ifs <;> omega

lemma eye_symm (a b : ℕ) : eye a b = eye b a := by
  unfold eye; split_ifs <;> omega

lemma Dx2_dirichlet_def (N : ℕ) : Dx2 .dirichlet N = dx2Dir := rfl

lemma Dx2_neumann_def (N : ℕ) : Dx2 .neumann N = dx2Neu N := rfl

lemma D2_dirichlet_symm (N r c : ℕ) :
    D2 .dirichlet N r c = D2 .dirichlet N c r := by
  unfold D2 kron
  rw [Dx2_dirichlet_def]
  rw [dx2Dir_symm, eye_symm, dx2Dir_symm (r / (N + 1)), eye_symm (r % (N + 1))]

/-- Any nonzero entry of either 1D operator lies on the three central
diagonals (truncated subtraction at row `0`). -/
lemma Dx2_stencil (v : Variant) (N a b : ℕ) (h : Dx2 v N a b ≠ 0) :
    b = a - 1 ∨ b = a ∨ b = a + 1 := by
  cases v <;> simp only [Dx2, dx2Dir, dx2Neu] at h <;> split_ifs at h <;> omega

lemma card_le_five (a b c d e : ℕ) : ({a, b, c, d, e} : Finset ℕ).card ≤ 5 := by
  apply le_trans (Finset.card_insert_le _ _)
  apply Nat.succ_le_succ
  apply le_trans (Finset.card_insert_le _ _)
  apply Nat.succ_le_succ
  apply le_trans (Finset.card_insert_le _ _)
  apply Nat.succ_le_succ
  apply le_trans (Finset.card_insert_le _ _)
  apply Nat.succ_le_succ
  exact (Finset.card_singleton _).le

lemma card_le_four (a b c d : ℕ) : ({a, b, c, d} : Finset ℕ).card ≤ 4 := by
  apply le_trans (Finset.card_insert_le _ _)
  apply Nat.succ_le_succ
  apply le_trans (Finset.card_insert_le _ _)
  apply Nat.succ_le_succ
  apply le_trans (Finset.card_insert_le _ _)
  apply Nat.succ_le_succ
  exact (Finset.card_singleton _).le

/-- A nonzero entry in row `r` of `D2` lies either on the same block row with
a column offset of at most one, or on the same in-block column with a block
offset of at most one. -/
lemma D2_row_cases (v : Variant) (N r c : ℕ) (h : D2 v N r c ≠ 0) :
    (c / (N + 1) = r / (N + 1) ∧
      (c % (N + 1) = r % (N + 1) - 1 ∨ c % (N + 1) = r % (N + 1) ∨
       c % (N + 1) = r % (N + 1) + 1)) ∨
    (c % (N + 1) = r % (N + 1) ∧
      (c / (N + 1) = r / (N + 1) - 1 ∨ c / (N + 1) = r / (N + 1) ∨
       c / (N + 1) = r / (N + 1) + 1)) := by
  rcases (by
      by_contra hcon
      push_neg at hcon
      simp [D2, hcon.1, hcon.2] at h :
      kron (N + 1) eye (Dx2 v N) r c ≠ 0 ∨ kron (N + 1) (Dx2 v N) eye r c ≠ 0) with h1 | h1
  · have hd : r / (N + 1) = c / (N + 1) := by
      by_contra hne
      simp [kron, eye, hne] at h1
    have hs : Dx2 v N (r % (N + 1)) (c % (N + 1)) ≠ 0 := by
      intro h0; simp [kron, h0] at h1
    exact Or.inl ⟨hd.symm, Dx2_stencil v N _ _ hs⟩
  · have hm : r % (N + 1) = c % (N + 1) := by
      by_contra hne
      simp [kron, eye, hne] at h1
    have hs : Dx2 v N (r / (N + 1)) (c / (N + 1)) ≠ 0 := by
      intro h0; simp [kron, h0] at h1
    exact Or.inr ⟨hm.symm, Dx2_stencil v N _ _ hs⟩

lemma eq_of_divmod (n c q s : ℕ) (hq : c / n = q) (hs : c % n = s) :
    c = n * q + s := by
  rw [← hq, ← hs, Nat.div_add_mod]

/-- Every row of `D2` has at most five nonzero entries. -/
lemma D2_row_sparse (v : Variant) (N r : ℕ) :
    ∃ S : Finset ℕ, S.card ≤ 5 ∧
      ∀ c, c < (N + 1) * (N + 1) → D2 v N r c ≠ 0 → c ∈ S := by
  refine ⟨{r, (N + 1) * (r / (N + 1)) + (r % (N + 1) - 1),
           (N + 1) * (r / (N + 1)) + (r % (N + 1) + 1),
           (N + 1) * (r / (N + 1) - 1) + r % (N + 1),
           (N + 1) * (r / (N + 1) + 1) + r % (N + 1)}, card_le_five _ _ _ _ _, ?_⟩
  intro c _ h
  have hre : (N + 1) * (r / (N + 1)) + r % (N + 1) = r := Nat.div_add_mod r (N + 1)
  rcases D2_row_cases v N r c h with ⟨hd, hm | hm | hm⟩ | ⟨hm, hd | hd | hd⟩ <;>
    rw [eq_of_divmod (N + 1) c _ _ hd hm] <;>
    simp [hre, Finset.mem_insert]

/-- Rows of `D2` indexed by a grid point on one of the four edges have at
most four nonzero entries. -/
lemma D2_row_sparse_boundary (v : Variant) (N r : ℕ)
    (hr : r < (N + 1) * (N + 1))
    (hb : r / (N + 1) = 0 ∨ r / (N + 1) = N ∨ r % (N + 1) = 0 ∨ r % (N + 1) = N) :
    ∃ S : Finset ℕ, S.card ≤ 4 ∧
      ∀ c, c < (N + 1) * (N + 1) → D2 v N r c ≠ 0 → c ∈ S := by
  have hre : (N + 1) * (r / (N + 1)) + r % (N + 1) = r := Nat.div_add_mod r (N + 1)
  rcases hb with hb | hb | hb | hb
  · -- first block row: the `r / (N+1) - 1` neighbour coincides with `r`
    refine ⟨{r, (N + 1) * (r / (N + 1)) + (r % (N + 1) - 1),
             (N + 1) * (r / (N + 1)) + (r % (N + 1) + 1),
             (N + 1) * (r / (N + 1) + 1) + r % (N + 1)}, card_le_four _ _ _ _, ?_⟩
    intro c _ h
    have hq1 : r / (N + 1) - 1 = r / (N + 1) := by rw [hb]
    rcases D2_row_cases v N r c h with ⟨hd, hm | hm | hm⟩ | ⟨hm, hd | hd | hd⟩ <;>
      [skip; skip; skip; rw [hq1] at hd; skip; skip] <;>
      rw [eq_of_divmod (N + 1) c _ _ hd hm] <;>
      simp [hre, Finset.mem_insert]
  · -- last block row: the `r / (N+1) + 1` neighbour is out of range
    refine ⟨{r, (N + 1) * (r / (N + 1)) + (r % (N + 1) - 1),
             (N + 1) * (r / (N + 1)) + (r % (N + 1) + 1),
             (N + 1) * (r / (N + 1) - 1) + r % (N + 1)}, card_le_four _ _ _ _, ?_⟩
    intro c hc h
    have hdivlt : c / (N + 1) < N + 1 :=
      (Nat.div_lt_iff_lt_mul (Nat.succ_pos N)).mpr hc
    rcases D2_row_cases v N r c h with ⟨hd, hm | hm | hm⟩ | ⟨hm, hd | hd | hd⟩
    · rw [eq_of_divmod (N + 1) c _ _ hd hm]; simp [hre, Finset.mem_insert]
    · rw [eq_of_divmod (N + 1) c _ _ hd hm]; simp [hre, Finset.mem_insert]
    · rw [eq_of_divmod (N + 1) c _ _ hd hm]; simp [hre, Finset.mem_insert]
    · rw [eq_of_divmod (N + 1) c _ _ hd hm]; simp [hre, Finset.mem_insert]
    · rw [eq_of_divmod (N + 1) c _ _ hd hm]; simp [hre, Finset.mem_insert]
    · exact absurd (hd.trans (by rw [hb])) (by omega)
  · -- first in-block column: the `r % (N+1) - 1` neighbour coincides with `r`
    refine ⟨{r, (N + 1) * (r / (N + 1)) + (r % (N + 1) + 1),
             (N + 1) * (r / (N + 1) - 1) + r % (N + 1),
             (N + 1) * (r / (N + 1) + 1) + r % (N + 1)}, card_le_four _ _ _ _, ?_⟩
    intro c _ h
    have hs1 : r % (N + 1) - 1 = r % (N + 1) := by rw [hb]
    rcases D2_row_cases v N r c h with ⟨hd, hm | hm | hm⟩ | ⟨hm, hd | hd | hd⟩ <;>
      [rw [hs1] at hm; skip; skip; skip; skip; skip] <;>
      rw [eq_of_divmod (N + 1) c _ _ hd hm] <;>
      simp [hre, Finset.mem_insert]
  · -- last in-block column: the `r % (N+1) + 1` neighbour is out of range
    refine ⟨{r, (N + 1) * (r / (N + 1)) + (r % (N + 1) - 1),
             (N + 1) * (r / (N + 1) - 1) + r % (N + 1),
             (N + 1) * (r / (N + 1) + 1) + r % (N + 1)}, card_le_four _ _ _ _, ?_⟩
    intro c _ h
    have hmodlt : c % (N + 1) < N + 1 := Nat.mod_lt c (Nat.succ_pos N)
    rcases D2_row_cases v N r c h with ⟨hd, hm | hm | hm⟩ | ⟨hm, hd | hd | hd⟩
    · rw [eq_of_divmod (N + 1) c _ _ hd hm]; simp [hre, Finset.mem_insert]
    · rw [eq_of_divmod (N + 1) c _ _ hd hm]; simp [hre, Finset.mem_insert]
    · exact absurd (hm.trans (by rw [hb])) (by omega)
    · rw [eq_of_divmod (N + 1) c _ _ hd hm]; simp [hre, Finset.mem_insert]
    · rw [eq_of_divmod (N + 1) c _ _ hd hm]; simp [hre, Finset.mem_insert]
    · rw [eq_of_divmod (N + 1) c _ _ hd hm]; simp [hre, Finset.mem_insert]

/-! ### Field bookkeeping for `stepOnce`, `initSolution` and `states` -/

@[simp] lemma stepOnce_cfl (v : Variant) (D : ℕ → ℕ → ℤ) (s : State) :
    (stepOnce v D s).cfl = s.cfl := by cases v <;> rfl

@[simp] lemma stepOnce_c (v : Variant) (D : ℕ → ℕ → ℤ) (s : State) :
    (stepOnce v D s).c = s.c := by cases v <;> rfl

@[simp] lemma stepOnce_dx (v : Variant) (D : ℕ → ℕ → ℤ) (s : State) :
    (stepOnce v D s).dx = s.dx := by cases v <;> rfl

@[simp] lemma stepOnce_dy (v : Variant) (D : ℕ → ℕ → ℤ) (s : State) :
    (stepOnce v D s).dy = s.dy := by cases v <;> rfl

@[simp] lemma stepOnce_n (v : Variant) (D : ℕ → ℕ → ℤ) (s : State) :
    (stepOnce v D s).n = s.n := by cases v <;> rfl

@[simp] lemma stepOnce_xij (v : Variant) (D : ℕ → ℕ → ℤ) (s : State) :
    (stepOnce v D s).xij = s.xij := by cases v <;> rfl

@[simp] lemma stepOnce_yij (v : Variant) (D : ℕ → ℕ → ℤ) (s : State) :
    (stepOnce v D s).yij = s.yij := by cases v <;> rfl

@[simp] lemma stepOnce_mx (v : Variant) (D : ℕ → ℕ → ℤ) (s : State) :
    (stepOnce v D s).mx = s.mx := by cases v <;> rfl

@[simp] lemma stepOnce_my (v : Variant) (D : ℕ → ℕ → ℤ) (s : State) :
    (stepOnce v D s).my = s.my := by cases v <;> rfl

@[simp] lemma stepOnce_unm1 (v : Variant) (D : ℕ → ℕ → ℤ) (s : State) :
    (stepOnce v D s).unm1 = s.un := by cases v <;> rfl

/-- The updated field equals the post-boundary `unp1` of the state holding
the raw leapfrog update, exactly as in the loop body of `__call__`. -/
lemma stepOnce_un (v : Variant) (D : ℕ → ℕ → ℤ) (s : State) :
    (stepOnce v D s).un =
      (apply_bcs v { s with unp1 :=
        (fun i j => 2 * s.un i j - s.unm1 i j + s.cfl ^ 2 * lapApply D s.n s.un i j) }).unp1 := by
  cases v <;> rfl

lemma stepOnce_un_dirichlet (D : ℕ → ℕ → ℤ) (s : State) :
    (stepOnce .dirichlet D s).un =
      fun i j => if i = 0 ∨ i = s.n ∨ j = 0 ∨ j = s.n then 0
        else 2 * s.un i j - s.unm1 i j + s.cfl ^ 2 * lapApply D s.n s.un i j := rfl

@[simp] lemma states_zero (v : Variant) (D : ℕ → ℕ → ℤ) (s1 : State) :
    states v D s1 0 = s1 := rfl

lemma states_succ (v : Variant) (D : ℕ → ℕ → ℤ) (s1 : State) (n : ℕ) :
    states v D s1 (n + 1) = stepOnce v D (states v D s1 n) := rfl

@[simp] lemma states_cfl (v : Variant) (D : ℕ → ℕ → ℤ) (s1 : State) (n : ℕ) :
    (states v D s1 n).cfl = s1.cfl := by
  induction n with
  | zero => rfl
  | succ n ih => rw [states_succ, stepOnce_cfl, ih]

@[simp] lemma states_c (v : Variant) (D : ℕ → ℕ → ℤ) (s1 : State) (n : ℕ) :
    (states v D s1 n).c = s1.c := by
  induction n with
  | zero => rfl
  | succ n ih => rw [states_succ, stepOnce_c, ih]

@[simp] lemma states_dx (v : Variant) (D : ℕ → ℕ → ℤ) (s1 : State) (n : ℕ) :
    (states v D s1 n).dx = s1.dx := by
  induction n with
  | zero => rfl
  | succ n ih => rw [states_succ, stepOnce_dx, ih]

@[simp] lemma states_dy (v : Variant) (D : ℕ → ℕ → ℤ) (s1 : State) (n : ℕ) :
    (states v D s1 n).dy = s1.dy := by
  induction n with
  | zero => rfl
  | succ n ih => rw [states_succ, stepOnce_dy, ih]

@[simp] lemma states_n (v : Variant) (D : ℕ → ℕ → ℤ) (s1 : State) (n : ℕ) :
    (states v D s1 n).n = s1.n := by
  induction n with
  | zero => rfl
  | succ n ih => rw [states_succ, stepOnce_n, ih]

@[simp] lemma states_xij (v : Variant) (D : ℕ → ℕ → ℤ) (s1 : State) (n : ℕ) :
    (states v D s1 n).xij = s1.xij := by
  induction n with
  | zero => rfl
  | succ n ih => rw [states_succ, stepOnce_xij, ih]

@[simp] lemma states_yij (v : Variant) (D : ℕ → ℕ → ℤ) (s1 : State) (n : ℕ) :
    (states v D s1 n).yij = s1.yij := by
  induction n with
  | zero => rfl
  | succ n ih => rw [states_succ, stepOnce_yij, ih]

@[simp] lemma states_mx (v : Variant) (D : ℕ → ℕ → ℤ) (s1 : State) (n : ℕ) :
    (states v D s1 n).mx = s1.mx := by
  induction n with
  | zero => rfl
  | succ n ih => rw [states_succ, stepOnce_mx, ih]

@[simp] lemma states_my (v : Variant) (D : ℕ → ℕ → ℤ) (s1 : State) (n : ℕ) :
    (states v D s1 n).my = s1.my := by
  induction n with
  | zero => rfl
  | succ n ih => rw [states_succ, stepOnce_my, ih]

@[simp] lemma initSolution_cfl (v : Variant) (s : State) (N : ℕ) (mx my : ℤ) :
    (initSolution v s N mx my).cfl = s.cfl := rfl

@[simp] lemma initSolution_c (v : Variant) (s : State) (N : ℕ) (mx my : ℤ) :
    (initSolution v s N mx my).c = s.c := rfl

@[simp] lemma initSolution_dx (v : Variant) (s : State) (N : ℕ) (mx my : ℤ) :
    (initSolution v s N mx my).dx = 1 / (N : ℝ) := rfl

@[simp] lemma initSolution_dy (v : Variant) (s : State) (N : ℕ) (mx my : ℤ) :
    (initSolution v s N mx my).dy = 1 / (N : ℝ) := rfl

@[simp] lemma initSolution_n (v : Variant) (s : State) (N : ℕ) (mx my : ℤ) :
    (initSolution v s N mx my).n = N := rfl

@[simp] lemma initSolution_xij (v : Variant) (s : State) (N : ℕ) (mx my : ℤ) :
    (initSolution v s N mx my).xij = fun (i : ℕ) (_ : ℕ) => (i : ℝ) / (N : ℝ) := rfl

@[simp] lemma initSolution_yij (v : Variant) (s : State) (N : ℕ) (mx my : ℤ) :
    (initSolution v s N mx my).yij = fun (_ : ℕ) (j : ℕ) => (j : ℝ) / (N : ℝ) := rfl

@[simp] lemma initSolution_mx (v : Variant) (s : State) (N : ℕ) (mx my : ℤ) :
    (initSolution v s N mx my).mx = mx := rfl

@[simp] lemma initSolution_my (v : Variant) (s : State) (N : ℕ) (mx my : ℤ) :
    (initSolution v s N mx my).my = my := rfl

@[simp] lemma initSolution_unp1 (v : Variant) (s : State) (N : ℕ) (mx my : ℤ) :
    (initSolution v s N mx my).unp1 = s.unp1 := rfl

/-! ### Congruence: the solver methods read only part of the state -/

lemma w_congr (s t : State) (hc : s.c = t.c) (hmx : s.mx = t.mx)
    (hmy : s.my = t.my) : w s = w t := by
  simp [w, hc, hmx, hmy]

lemma ue_congr (v : Variant) (s t : State) (mx my : ℤ) (X Y T : ℝ)
    (hc : s.c = t.c) (hmx : s.mx = t.mx) (hmy : s.my = t.my) :
    ue v s mx my X Y T = ue v t mx my X Y T := by
  cases v <;> simp [ue, w_congr s t hc hmx hmy]

lemma dt_congr (s t : State) (hcfl : s.cfl = t.cfl) (hdx : s.dx = t.dx)
    (hdy : s.dy = t.dy) (hc : s.c = t.c) : dt s = dt t := by
  simp [dt, hcfl, hdx, hdy, hc]

lemma l2_error_congr (v : Variant) (s t : State) (u : Field) (t0 : ℝ)
    (hn : s.n = t.n) (hc : s.c = t.c) (hmx : s.mx = t.mx) (hmy : s.my = t.my)
    (hxij : s.xij = t.xij) (hyij : s.yij = t.yij) :
    l2_error v s u t0 = l2_error v t u t0 := by
  simp only [l2_error, hn, hmx, hmy, hxij, hyij,
    ue_congr v s t t.mx t.my _ _ _ hc hmx hmy]

/-! ### Independence from the incoming instance state -/

/-- After `self.cfl = cfl; self.c = c; self.initialize(N, mx, my)` the
instance state is, except for the stale `unp1`, a function of the call
parameters alone. -/
lemma agree_initSolution (v : Variant) (s t : State) (cfl c : ℝ) (N : ℕ)
    (mx my : ℤ) :
    Agree (initSolution v { s with cfl := cfl, c := c } N mx my)
      (initSolution v { t with cfl := cfl, c := c } N mx my) :=
  ⟨rfl, rfl, rfl, rfl, rfl, rfl, rfl, rfl, rfl, rfl, rfl⟩

/-- The loop body never reads the stale `unp1`, so it maps states agreeing
off `unp1` to *equal* states. -/
lemma stepOnce_congr (v : Variant) (D : ℕ → ℕ → ℤ) (s t : State)
    (h : Agree s t) : stepOnce v D s = stepOnce v D t := by
  obtain ⟨h1, h2, h3, h4, h5, h6, h7, h8, h9, h10, h11⟩ := h
  cases v <;> apply State.ext <;>
    simp [stepOnce, apply_bcs, h1, h2, h3, h4, h5, h6, h7, h8, h9, h10, h11]

lemma states_congr (v : Variant) (D : ℕ → ℕ → ℤ) (s t : State)
    (h : Agree s t) (n : ℕ) :
    states v D s (n + 1) = states v D t (n + 1) := by
  induction n with
  | zero => exact stepOnce_congr v D s t h
  | succ n ih => rw [states_succ v D s (n + 1), states_succ v D t (n + 1), ih]

/-! ### Closed form of the time loop -/

/-- Unrolling the `foldl` over `range(1, Nt+1)`: the final state is
`states Nt` and the two accumulators take their closed forms. -/
lemma foldl_loop (v : Variant) (D : ℕ → ℕ → ℤ) (sd : ℤ) (s1 : State) (Nt : ℕ)
    (d0 : List (ℕ × Field)) (e0 : List ℝ) :
    (List.range' 1 Nt).foldl (loopBody v D sd) (s1, d0, e0) =
      (states v D s1 Nt,
       d0 ++ ((List.range' 1 Nt).filter
          (fun (n : ℕ) => decide (0 < sd ∧ (n : ℤ) % sd = 0))).map
          (fun n => (n, (states v D s1 n).un)),
       e0 ++ (if sd = -1 then (List.range' 1 Nt).map (fun n =>
          l2_error v (states v D s1 n) ((states v D s1 n).un)
            ((n : ℝ) * dt (states v D s1 n))) else [])) := by
  induction Nt with
  | zero => simp
  | succ n ih =>
    rw [List.range'_concat, List.foldl_append, ih]
    have hn1 : 1 + 1 * n = n + 1 := by omega
    rw [hn1]
    simp only [List.foldl_cons, List.foldl_nil, loopBody, List.filter_append,
      List.map_append, List.filter_cons, List.filter_nil, List.map_cons,
      List.map_nil, decide_eq_true_eq, ← states_succ, Prod.mk.injEq]
    refine ⟨trivial, ?_, ?_⟩
    · by_cases hd : 0 < sd ∧ ((n + 1 : ℕ) : ℤ) % sd = 0
      · rw [if_pos hd, if_pos hd]
        simp [List.append_assoc]
      · rw [if_neg hd, if_neg hd]
        simp
    · by_cases he : sd = -1
      · rw [if_pos he, if_pos he, if_pos he]
        simp [List.append_assoc]
      · rw [if_neg he, if_neg he, if_neg he]

/-- For a nonnegative integer resolution the real cast of `N.toNat` is the
cast of `N`. -/
lemma toNat_cast_real (N : ℤ) (hN : 0 ≤ N) : ((N.toNat : ℕ) : ℝ) = (N : ℝ) := by
  exact_mod_cast congrArg Int.cast (Int.toNat_of_nonneg hN)

/-- Calling `__call__` with a valid resolution in error mode (`store_data == -1`):
it returns the pair `(dx, errors)` with the closed-form error list. -/
lemma call_errMode (v : Variant) (s : State) (N Nt : ℤ) (cfl c : ℝ)
    (mx my : ℤ) (hN : 1 ≤ N) :
    call v s N Nt cfl c mx my (-1) =
      .ok (states v (D2 v N.toNat)
            (initSolution v { s with cfl := cfl, c := c } N.toNat mx my) Nt.toNat,
          .errPair (1 / (N : ℝ))
            (some (errListOf v (D2 v N.toNat)
              (initSolution v { s with cfl := cfl, c := c } N.toNat mx my)
              Nt.toNat))) := by
  simp only [call]
  rw [if_neg (show ¬(N + 1 < 0) by omega), if_neg (show ¬(N = 0) by omega),
    if_neg (show ¬(N < 0) by omega), foldl_loop,
    if_neg (show ¬(0 < (-1 : ℤ)) by norm_num),
    if_neg (show ¬(0 < (-1 : ℤ)) by norm_num), if_pos rfl]
  rw [states_dx, initSolution_dx, toNat_cast_real N (by omega)]
  simp [errListOf]

/-- Calling `__call__` with a valid resolution in snapshot mode (`store_data > 0`):
it returns the snapshot dictionary with the closed-form entry list. -/
lemma call_snapMode (v : Variant) (s : State) (N Nt : ℤ) (cfl c : ℝ)
    (mx my : ℤ) (sd : ℤ) (hN : 1 ≤ N) (hsd : 0 < sd) :
    call v s N Nt cfl c mx my sd =
      .ok (states v (D2 v N.toNat)
            (initSolution v { s with cfl := cfl, c := c } N.toNat mx my) Nt.toNat,
          .snaps (snapListOf v (D2 v N.toNat)
            (initSolution v { s with cfl := cfl, c := c } N.toNat mx my)
            sd Nt.toNat)) := by
  simp only [call]
  rw [if_neg (show ¬(N + 1 < 0) by omega), if_neg (show ¬(N = 0) by omega),
    if_neg (show ¬(N < 0) by omega), if_pos hsd, foldl_loop, if_pos hsd]
  simp [snapListOf]

/-- Calling `__call__` with a `store_data` that is neither positive nor `-1`
(e.g. `0`): the loop stores nothing and the call returns
`(dx, np.array(None))`. -/
lemma call_noneMode (v : Variant) (s : State) (N Nt : ℤ) (cfl c : ℝ)
    (mx my : ℤ) (sd : ℤ) (hN : 1 ≤ N) (hsd : ¬ 0 < sd) (hsd' : sd ≠ -1) :
    call v s N Nt cfl c mx my sd =
      .ok (states v (D2 v N.toNat)
            (initSolution v { s with cfl := cfl, c := c } N.toNat mx my) Nt.toNat,
          .errPair (1 / (N : ℝ)) none) := by
  simp only [call]
  rw [if_neg (show ¬(N + 1 < 0) by omega), if_neg (show ¬(N = 0) by omega),
    if_neg (show ¬(N < 0) by omega), if_neg hsd, foldl_loop, if_neg hsd]
  simp [hsd', toNat_cast_real N (by omega)]

lemma errListOf_congr (v : Variant) (D : ℕ → ℕ → ℤ) (s1 t1 : State)
    (h : Agree s1 t1) (Nt : ℕ) : errListOf v D s1 Nt = errListOf v D t1 Nt := by
  unfold errListOf
  apply List.map_congr_left
  intro m hm
  obtain ⟨i, hi, rfl⟩ := List.mem_range'.mp hm
  have h1 : 1 + 1 * i = i + 1 := by omega
  rw [h1, states_congr v D s1 t1 h i]

lemma snapListOf_congr (v : Variant) (D : ℕ → ℕ → ℤ) (s1 t1 : State)
    (h : Agree s1 t1) (sd : ℤ) (Nt : ℕ) :
    snapListOf v D s1 sd Nt = snapListOf v D t1 sd Nt := by
  unfold snapListOf
  rw [h.2.2.2.2.2.2.2.2.2.1]
  congr 1
  apply List.map_congr_left
  intro m hm
  obtain ⟨i, hi, rfl⟩ := List.mem_range'.mp (List.mem_of_mem_filter hm)
  have h1 : 1 + 1 * i = i + 1 := by omega
  rw [h1, states_congr v D s1 t1 h i]

/-- The returned data of `__call__` does not depend on the instance state
the call starts from: two calls with identical parameters return equal
snapshot/error output, whatever each instance did before. -/
lemma call_output_indep (v : Variant) (s t : State) (N Nt : ℤ) (cfl c : ℝ)
    (mx my : ℤ) (sd : ℤ) :
    Except.map Prod.snd (call v s N Nt cfl c mx my sd) =
      Except.map Prod.snd (call v t N Nt cfl c mx my sd) := by
  by_cases h1 : N + 1 < 0
  · simp [call, h1]
  by_cases h2 : N = 0
  · simp [call, h1, h2]
  by_cases h3 : N < 0
  · simp [call, h1, h2, h3]
  have hN : 1 ≤ N := by omega
  have hag := agree_initSolution v s t cfl c N.toNat mx my
  by_cases hsd : 0 < sd
  · rw [call_snapMode v s N Nt cfl c mx my sd hN hsd,
      call_snapMode v t N Nt cfl c mx my sd hN hsd]
    simp only [Except.map]
    rw [snapListOf_congr _ _ _ _ hag]
  · by_cases hsd' : sd = -1
    · subst hsd'
      rw [call_errMode v s N Nt cfl c mx my hN,
        call_errMode v t N Nt cfl c mx my hN]
      simp only [Except.map]
      rw [errListOf_congr _ _ _ _ hag]
    · rw [call_noneMode v s N Nt cfl c mx my sd hN hsd hsd',
        call_noneMode v t N Nt cfl c mx my sd hN hsd hsd']
      simp only [Except.map]

lemma ue_congr_fun (v : Variant) (s t : State) (mx my : ℤ) (hc : s.c = t.c)
    (hmx : s.mx = t.mx) (hmy : s.my = t.my) : ue v s mx my = ue v t mx my := by
  funext X Y T
  exact ue_congr v s t mx my X Y T hc hmx hmy

lemma dt_states (v : Variant) (D : ℕ → ℕ → ℤ) (s1 : State) (n : ℕ) :
    dt (states v D s1 n) = dt s1 :=
  dt_congr _ _ (states_cfl v D s1 n) (states_dx v D s1 n) (states_dy v D s1 n)
    (states_c v D s1 n)

/-- Function `l2_error` evaluated at any state of a run, written out as the
root-mean-square difference over the `(N+1) × (N+1)` grid. -/
lemma l2_error_at_state (v : Variant) (s : State) (N : ℤ) (cfl c : ℝ)
    (mx my : ℤ) (hN : 0 ≤ N) (n : ℕ) (u : Field) (t0 : ℝ) :
    l2_error v
        (states v (D2 v N.toNat)
          (initSolution v { s with cfl := cfl, c := c } N.toNat mx my) n) u t0 =
      Real.sqrt
        ((∑ i ∈ Finset.range (N.toNat + 1), ∑ j ∈ Finset.range (N.toNat + 1),
            (u i j -
              ue v (initSolution v { s with cfl := cfl, c := c } N.toNat mx my)
                mx my ((i : ℝ) / (N : ℝ)) ((j : ℝ) / (N : ℝ)) t0) ^ 2) /
          (((N : ℝ) + 1) * ((N : ℝ) + 1))) := by
  unfold l2_error
  rw [states_n, initSolution_n, states_mx, states_my, initSolution_mx,
    initSolution_my, states_xij, states_yij, initSolution_xij, initSolution_yij,
    ue_congr_fun v _ (initSolution v { s with cfl := cfl, c := c } N.toNat mx my)
      mx my (states_c _ _ _ _) (states_mx _ _ _ _) (states_my _ _ _ _),
    toNat_cast_real N hN]

/-- The Dirichlet exact solution vanishes on the boundary of the unit
square (for integer mode numbers). -/
lemma ue_dirichlet_edge (s : State) (mx my : ℤ) (X Y T : ℝ)
    (h : X = 0 ∨ X = 1 ∨ Y = 0 ∨ Y = 1) : ue .dirichlet s mx my X Y T = 0 := by
  rcases h with h | h | h | h <;> subst h <;>
    simp [ue, Real.sin_int_mul_pi]

/-- The initial field `unm1` of the Dirichlet variant vanishes on the four
edges of the mesh. -/
lemma initSolution_unm1_edge (s : State) (N : ℕ) (hN : 1 ≤ N) (mx my : ℤ)
    (i j : ℕ) (h : i = 0 ∨ i = N ∨ j = 0 ∨ j = N) :
    (initSolution .dirichlet s N mx my).unm1 i j = 0 := by
  have hNne : ((N : ℕ) : ℝ) ≠ 0 := by
    have : (0 : ℝ) < ((N : ℕ) : ℝ) := by exact_mod_cast hN
    exact ne_of_gt this
  apply ue_dirichlet_edge
  rcases h with h | h | h | h <;> subst h
  · left; simp [create_mesh]
  · right; left; field_simp [create_mesh]
  · right; right; left; simp [create_mesh]
  · right; right; right; field_simp [create_mesh]

/-- The initial field `un` of the Dirichlet variant vanishes on the four
edges of the mesh. -/
lemma initSolution_un_edge (s : State) (N : ℕ) (hN : 1 ≤ N) (mx my : ℤ)
    (i j : ℕ) (h : i = 0 ∨ i = N ∨ j = 0 ∨ j = N) :
    (initSolution .dirichlet s N mx my).un i j = 0 := by
  have hNne : ((N : ℕ) : ℝ) ≠ 0 := by
    have : (0 : ℝ) < ((N : ℕ) : ℝ) := by exact_mod_cast hN
    exact ne_of_gt this
  apply ue_dirichlet_edge
  rcases h with h | h | h | h <;> subst h
  · left; simp [create_mesh]
  · right; left; field_simp [create_mesh]
  · right; right; left; simp [create_mesh]
  · right; right; right; field_simp [create_mesh]

/-- After any Dirichlet step the current field vanishes on the four edges
(`apply_bcs` zeroed them). -/
lemma states_un_edge (D : ℕ → ℕ → ℤ) (s1 : State) (n : ℕ) (i j : ℕ)
    (h : i = 0 ∨ i = s1.n ∨ j = 0 ∨ j = s1.n) :
    (states .dirichlet D s1 (n + 1)).un i j = 0 := by
  have hn : (states .dirichlet D s1 n).n = s1.n := states_n _ _ _ _
  rw [states_succ]
  simp only [stepOnce_un_dirichlet, hn]
  rw [if_pos h]

lemma errListOf_length (v : Variant) (D : ℕ → ℕ → ℤ) (s1 : State) (Nt : ℕ) :
    (errListOf v D s1 Nt).length = Nt := by
  rw [errListOf, List.length_map, List.length_range']

/-- The error list of an error-mode run does not depend on the incoming
instance state. -/
lemma errListOf_indep (v : Variant) (s : State) (N Nt : ℤ) (cfl : ℝ)
    (mx my : ℤ) (hN : 1 ≤ N) :
    errListOf v (D2 v N.toNat)
        (initSolution v { s with cfl := cfl, c := 1 } N.toNat mx my) Nt.toNat =
      runErrs v cfl N Nt mx my := by
  have h := call_output_indep v s blankState N Nt cfl 1 mx my (-1)
  rw [call_errMode v s N Nt cfl 1 mx my hN,
    call_errMode v blankState N Nt cfl 1 mx my hN] at h
  simp only [Except.map] at h
  simpa [runErrs] using h

/-- Closed form of the `convergence_rates` loop: `k` levels starting from
`(N0, Nt)` append the final-step errors and spacings of the runs at
`(N0·2ⁱ, Nt·2ⁱ)`, `i = 0, …, k-1`. -/
lemma convLoop_spec (v : Variant) (k : ℕ) (s : State) (N0 Nt : ℤ) (cfl : ℝ)
    (mx my : ℤ) (E0 h0 : List ℝ) (hN0 : 1 ≤ N0) (hNt : 1 ≤ Nt) :
    ∃ sF, convLoop v k s N0 Nt cfl mx my E0 h0 =
      .ok (sF,
        E0 ++ (List.range k).map
          (fun i => runLastErr v cfl (N0 * 2 ^ i) (Nt * 2 ^ i) mx my),
        h0 ++ (List.range k).map
          (fun i => 1 / ((N0 * 2 ^ i : ℤ) : ℝ))) := by
  induction k generalizing s N0 Nt E0 h0 with
  | zero => exact ⟨s, by simp [convLoop]⟩
  | succ k ih =>
    have hcall := call_errMode v s N0 Nt cfl 1 mx my hN0
    have herrs := errListOf_indep v s N0 Nt cfl mx my hN0
    have hne : runErrs v cfl N0 Nt mx my ≠ [] := by
      intro hnil
      have hlen := errListOf_length v (D2 v N0.toNat)
        (initSolution v { s with cfl := cfl, c := 1 } N0.toNat mx my) Nt.toNat
      rw [herrs, hnil] at hlen
      simp at hlen
      omega
    have hgl : (errListOf v (D2 v N0.toNat)
        (initSolution v { s with cfl := cfl, c := 1 } N0.toNat mx my)
          Nt.toNat).getLast? = some (runLastErr v cfl N0 Nt mx my) := by
      rw [herrs, runLastErr, List.getLast?_eq_getLast _ hne, Option.getD_some]
    obtain ⟨sF, hrec⟩ := ih
      (states v (D2 v N0.toNat)
        (initSolution v { s with cfl := cfl, c := 1 } N0.toNat mx my) Nt.toNat)
      (N0 * 2) (Nt * 2)
      (E0 ++ [runLastErr v cfl N0 Nt mx my]) (h0 ++ [1 / ((N0 : ℤ) : ℝ)])
      (by omega) (by omega)
    refine ⟨sF, ?_⟩
    simp only [convLoop]
    rw [hcall]
    simp only [hgl]
    rw [hrec]
    have hE : (E0 ++ [runLastErr v cfl N0 Nt mx my]) ++ (List.range k).map
          (fun i => runLastErr v cfl ((N0 * 2) * 2 ^ i) ((Nt * 2) * 2 ^ i) mx my) =
        E0 ++ (List.range (k + 1)).map
          (fun i => runLastErr v cfl (N0 * 2 ^ i) (Nt * 2 ^ i) mx my) := by
      rw [List.range_succ_eq_map, List.map_cons, List.map_map, List.append_assoc,
        List.singleton_append]
      congr 2
      · rw [pow_zero, mul_one, mul_one]
      · apply List.map_congr_left
        intro i _
        show runLastErr v cfl ((N0 * 2) * 2 ^ i) ((Nt * 2) * 2 ^ i) mx my =
          runLastErr v cfl (N0 * 2 ^ (i + 1)) (Nt * 2 ^ (i + 1)) mx my
        rw [show (N0 * 2) * 2 ^ i = N0 * 2 ^ (i + 1) by ring,
          show (Nt * 2) * 2 ^ i = Nt * 2 ^ (i + 1) by ring]
    have hh : (h0 ++ [1 / ((N0 : ℤ) : ℝ)]) ++ (List.range k).map
          (fun i => 1 / (((N0 * 2) * 2 ^ i : ℤ) : ℝ)) =
        h0 ++ (List.range (k + 1)).map
          (fun i => 1 / ((N0 * 2 ^ i : ℤ) : ℝ)) := by
      rw [List.range_succ_eq_map, List.map_cons, List.map_map, List.append_assoc,
        List.singleton_append]
      congr 2
      · rw [pow_zero, mul_one]
      · apply List.map_congr_left
        intro i _
        show 1 / (((N0 * 2) * 2 ^ i : ℤ) : ℝ) = 1 / ((N0 * 2 ^ (i + 1) : ℤ) : ℝ)
        rw [show (N0 * 2) * 2 ^ i = N0 * 2 ^ (i + 1) by ring]
    rw [hE, hh]

/-! ### Claim theorems -/

/-- C9: `solve` is deterministic and independent of prior solver state:
for every parameter tuple `(N, Nt, cfl, c, mx, my, store_data)`, two
invocations on instances in arbitrary states (in particular, on instances
that already completed earlier runs) return equal snapshot/error output. -/
theorem claim9_determinism (v : Variant) (s t : State) (N Nt : ℤ) (cfl c : ℝ)
    (mx my : ℤ) (sd : ℤ) :
    Except.map Prod.snd (call v s N Nt cfl c mx my sd) =
      Except.map Prod.snd (call v t N Nt cfl c mx my sd) :=
  call_output_indep v s t N Nt cfl c mx my sd

/-- C4 counterexample: the discrete Laplacian of the *Neumann*
variant is not symmetric: at `N = 2` the entry `(0, 1)` is `2` while the
entry `(1, 0)` is `1` (the one-sided boundary row `[-2, 2]` of the 1D
operator does not match the interior stencil `[1, -2, 1]` below it). -/
theorem claim4_counterexample :
    D2 .neumann 2 0 1 = 2 ∧ D2 .neumann 2 1 0 = 1 ∧
      D2 .neumann 2 0 1 ≠ D2 .neumann 2 1 0 := by decide

/-- C4 amended: for every `N ≥ 1`: the *Dirichlet* `D2` is symmetric
(the Neumann one is not, see the counterexample), and for *both* variants
the sparsity bound holds — at most 5 nonzero entries in every row and at
most 4 in every row indexed by a grid point on one of the four edges. -/
theorem claim4_symmetry_sparsity (v : Variant) (N : ℕ) (hN : 1 ≤ N) :
    (∀ r c, D2 .dirichlet N r c = D2 .dirichlet N c r) ∧
    (∀ r, r < (N + 1) * (N + 1) →
      ∃ S : Finset ℕ, S.card ≤ 5 ∧
        ∀ c, c < (N + 1) * (N + 1) → D2 v N r c ≠ 0 → c ∈ S) ∧
    (∀ r, r < (N + 1) * (N + 1) →
      (r / (N + 1) = 0 ∨ r / (N + 1) = N ∨ r % (N + 1) = 0 ∨ r % (N + 1) = N) →
      ∃ S : Finset ℕ, S.card ≤ 4 ∧
        ∀ c, c < (N + 1) * (N + 1) → D2 v N r c ≠ 0 → c ∈ S) :=
  ⟨fun r c => D2_dirichlet_symm N r c,
   fun r _ => D2_row_sparse v N r,
   fun r hr hb => D2_row_sparse_boundary v N r hr hb⟩

/-- Witness for C4 (amended) at `v = .neumann`, `N = 1`. -/
theorem claim4_witness :
    (1 : ℕ) ≤ 1 ∧
    ((∀ r c, D2 .dirichlet 1 r c = D2 .dirichlet 1 c r) ∧
     (∀ r, r < (1 + 1) * (1 + 1) →
       ∃ S : Finset ℕ, S.card ≤ 5 ∧
         ∀ c, c < (1 + 1) * (1 + 1) → D2 .neumann 1 r c ≠ 0 → c ∈ S) ∧
     (∀ r, r < (1 + 1) * (1 + 1) →
       (r / (1 + 1) = 0 ∨ r / (1 + 1) = 1 ∨ r % (1 + 1) = 0 ∨ r % (1 + 1) = 1) →
       ∃ S : Finset ℕ, S.card ≤ 4 ∧
         ∀ c, c < (1 + 1) * (1 + 1) → D2 .neumann 1 r c ≠ 0 → c ∈ S)) :=
  ⟨by decide, claim4_symmetry_sparsity .neumann 1 (by decide)⟩

/-- C7: the exact standing wave is
`sin(mx·π·x)·sin(my·π·y)·cos(ω·t)` for the Dirichlet variant and
`cos(mx·π·x)·cos(my·π·y)·cos(ω·t)` for the Neumann variant, with the same
angular frequency `ω = c·π·sqrt(mx² + my²)` used for initialization
(fields at `t = 0` and `t = -dt`) and for the error comparison. -/
theorem claim7_exact_solution (v : Variant) (s : State) (mx my : ℤ)
    (hmx : s.mx = mx) (hmy : s.my = my) (hc : 0 < s.c) (X Y T : ℝ) :
    w s = s.c * π * Real.sqrt ((mx : ℝ) ^ 2 + (my : ℝ) ^ 2) ∧
    ue .dirichlet s mx my X Y T =
      Real.sin ((mx : ℝ) * π * X) * Real.sin ((my : ℝ) * π * Y) *
        Real.cos ((s.c * π * Real.sqrt ((mx : ℝ) ^ 2 + (my : ℝ) ^ 2)) * T) ∧
    ue .neumann s mx my X Y T =
      Real.cos ((mx : ℝ) * π * X) * Real.cos ((my : ℝ) * π * Y) *
        Real.cos ((s.c * π * Real.sqrt ((mx : ℝ) ^ 2 + (my : ℝ) ^ 2)) * T) ∧
    (∀ N i j,
      (initSolution v s N mx my).un i j =
        ue v (initSolution v s N mx my) mx my
          ((i : ℝ) / (N : ℝ)) ((j : ℝ) / (N : ℝ)) 0 ∧
      (initSolution v s N mx my).unm1 i j =
        ue v (initSolution v s N mx my) mx my
          ((i : ℝ) / (N : ℝ)) ((j : ℝ) / (N : ℝ))
          (-(dt (initSolution v s N mx my)))) ∧
    (∀ u t0, l2_error v s u t0 =
      Real.sqrt
        ((∑ i ∈ Finset.range (s.n + 1), ∑ j ∈ Finset.range (s.n + 1),
            (u i j - ue v s mx my (s.xij i j) (s.yij i j) t0) ^ 2) /
          (((s.n : ℝ) + 1) * ((s.n : ℝ) + 1)))) := by
  subst hmx
  subst hmy
  exact ⟨rfl, rfl, rfl, fun N i j => ⟨rfl, rfl⟩, fun u t0 => rfl⟩

/-- Witness for C7 at a concrete instance state and point. -/
theorem claim7_witness :
    ({ blankState with c := 1, mx := 2, my := 3 } : State).mx = 2 ∧
    ({ blankState with c := 1, mx := 2, my := 3 } : State).my = 3 ∧
    (0 : ℝ) < ({ blankState with c := 1, mx := 2, my := 3 } : State).c ∧
    (w { blankState with c := 1, mx := 2, my := 3 } =
        ({ blankState with c := 1, mx := 2, my := 3 } : State).c * π *
          Real.sqrt ((2 : ℝ) ^ 2 + (3 : ℝ) ^ 2) ∧
      ue .dirichlet { blankState with c := 1, mx := 2, my := 3 } 2 3 0 0 0 =
        Real.sin ((2 : ℝ) * π * 0) * Real.sin ((3 : ℝ) * π * 0) *
          Real.cos ((({ blankState with c := 1, mx := 2, my := 3 } : State).c * π *
            Real.sqrt ((2 : ℝ) ^ 2 + (3 : ℝ) ^ 2)) * 0) ∧
      ue .neumann { blankState with c := 1, mx := 2, my := 3 } 2 3 0 0 0 =
        Real.cos ((2 : ℝ) * π * 0) * Real.cos ((3 : ℝ) * π * 0) *
          Real.cos ((({ blankState with c := 1, mx := 2, my := 3 } : State).c * π *
            Real.sqrt ((2 : ℝ) ^ 2 + (3 : ℝ) ^ 2)) * 0) ∧
      (∀ N i j,
        (initSolution .dirichlet { blankState with c := 1, mx := 2, my := 3 } N 2 3).un i j =
          ue .dirichlet
            (initSolution .dirichlet { blankState with c := 1, mx := 2, my := 3 } N 2 3) 2 3
            ((i : ℝ) / (N : ℝ)) ((j : ℝ) / (N : ℝ)) 0 ∧
        (initSolution .dirichlet { blankState with c := 1, mx := 2, my := 3 } N 2 3).unm1 i j =
          ue .dirichlet
            (initSolution .dirichlet { blankState with c := 1, mx := 2, my := 3 } N 2 3) 2 3
            ((i : ℝ) / (N : ℝ)) ((j : ℝ) / (N : ℝ))
            (-(dt (initSolution .dirichlet { blankState with c := 1, mx := 2, my := 3 } N 2 3)))) ∧
      (∀ u t0, l2_error .dirichlet { blankState with c := 1, mx := 2, my := 3 } u t0 =
        Real.sqrt
          ((∑ i ∈ Finset.range (({ blankState with c := 1, mx := 2, my := 3 } : State).n + 1),
              ∑ j ∈ Finset.range (({ blankState with c := 1, mx := 2, my := 3 } : State).n + 1),
              (u i j - ue .dirichlet { blankState with c := 1, mx := 2, my := 3 } 2 3
                (({ blankState with c := 1, mx := 2, my := 3 } : State).xij i j)
                (({ blankState with c := 1, mx := 2, my := 3 } : State).yij i j) t0) ^ 2) /
            (((({ blankState with c := 1, mx := 2, my := 3 } : State).n : ℝ) + 1) *
              ((({ blankState with c := 1, mx := 2, my := 3 } : State).n : ℝ) + 1))))) :=
  ⟨rfl, rfl, one_pos,
    claim7_exact_solution .dirichlet { blankState with c := 1, mx := 2, my := 3 }
      2 3 rfl rfl one_pos 0 0 0⟩

/-- C8: for `numLevels ≥ 2` (and a usable baseline step count
`Nt ≥ 1`), `convergence_rates` returns `(orders, errors, spacings)` where:
errors and spacings have length `numLevels`; level `i` records the
final-step L2 error and the spacing `dx = 1/(8·2ⁱ)` of an error-mode run
at `N = 8·2ⁱ` (baseline `N₀ = 8`, both `N` and `Nt` doubling between
levels) with the solver's default wave speed `c = 1`; and orders has
length `numLevels - 1` with entry `i-1` equal to
`log(E[i-1]/E[i]) / log(h[i-1]/h[i])`. -/
theorem claim8_convergence_rates (v : Variant) (s : State) (m : ℕ) (cfl : ℝ)
    (Nt : ℤ) (mx my : ℤ) (hm : 2 ≤ m) (hNt : 1 ≤ Nt) :
    ∃ sF r E h, convergence_rates v s m cfl Nt mx my = .ok (sF, (r, E, h)) ∧
      E.length = m ∧ h.length = m ∧ r.length = m - 1 ∧
      (∀ i, i < m →
        E.getD i 0 = runLastErr v cfl (8 * 2 ^ i) (Nt * 2 ^ i) mx my ∧
        h.getD i 0 = 1 / ((8 * 2 ^ i : ℤ) : ℝ) ∧
        ∃ sF2, call v blankState (8 * 2 ^ i) (Nt * 2 ^ i) cfl 1 mx my (-1) =
          .ok (sF2, .errPair (h.getD i 0)
            (some (runErrs v cfl (8 * 2 ^ i) (Nt * 2 ^ i) mx my))) ∧
          runErrs v cfl (8 * 2 ^ i) (Nt * 2 ^ i) mx my ≠ [] ∧
          (runErrs v cfl (8 * 2 ^ i) (Nt * 2 ^ i) mx my).getLast?.getD 0 =
            E.getD i 0) ∧
      (∀ i, 1 ≤ i → i ≤ m - 1 →
        r.getD (i - 1) 0 =
          Real.log (E.getD (i - 1) 0 / E.getD i 0) /
            Real.log (h.getD (i - 1) 0 / h.getD i 0)) := by
  obtain ⟨sF, hloop⟩ := convLoop_spec v m s 8 Nt cfl mx my [] []
    (by norm_num) hNt
  rw [List.nil_append, List.nil_append] at hloop
  have hpow : ∀ i : ℕ, (0 : ℤ) < 2 ^ i := fun i => by positivity
  refine ⟨sF,
    (List.range' 1 (m - 1)).map (fun i =>
      Real.log
          (((List.range m).map
              (fun i => runLastErr v cfl (8 * 2 ^ i) (Nt * 2 ^ i) mx my)).getD (i - 1) 0 /
            ((List.range m).map
              (fun i => runLastErr v cfl (8 * 2 ^ i) (Nt * 2 ^ i) mx my)).getD i 0) /
        Real.log
          (((List.range m).map (fun i => 1 / ((8 * 2 ^ i : ℤ) : ℝ))).getD (i - 1) 0 /
            ((List.range m).map (fun i => 1 / ((8 * 2 ^ i : ℤ) : ℝ))).getD i 0)),
    (List.range m).map (fun i => runLastErr v cfl (8 * 2 ^ i) (Nt * 2 ^ i) mx my),
    (List.range m).map (fun i => 1 / ((8 * 2 ^ i : ℤ) : ℝ)),
    ?_, by simp, by simp, by simp [List.length_range'], ?_, ?_⟩
  · simp only [convergence_rates]
    rw [hloop]
    rw [if_neg (show ¬ m = 0 by omega)]
  · intro i hi
    have hE : ((List.range m).map
          (fun i => runLastErr v cfl (8 * 2 ^ i) (Nt * 2 ^ i) mx my)).getD i 0 =
        runLastErr v cfl (8 * 2 ^ i) (Nt * 2 ^ i) mx my := by
      rw [List.getD_eq_getElem _ _ (by simp [hi]), List.getElem_map,
        List.getElem_range]
    have hh : ((List.range m).map (fun i => 1 / ((8 * 2 ^ i : ℤ) : ℝ))).getD i 0 =
        1 / ((8 * 2 ^ i : ℤ) : ℝ) := by
      rw [List.getD_eq_getElem _ _ (by simp [hi]), List.getElem_map,
        List.getElem_range]
    have hNt2 : (1 : ℤ) ≤ Nt * 2 ^ i := by
      have h2 := hpow i
      nlinarith
    refine ⟨hE, hh,
      states v (D2 v (8 * 2 ^ i : ℤ).toNat)
        (initSolution v { blankState with cfl := cfl, c := 1 }
          (8 * 2 ^ i : ℤ).toNat mx my) (Nt * 2 ^ i : ℤ).toNat, ?_, ?_, ?_⟩
    · rw [hh]
      exact call_errMode v blankState (8 * 2 ^ i) (Nt * 2 ^ i) cfl 1 mx my
        (by have := hpow i; omega)
    · intro hnil
      have hlen := errListOf_length v (D2 v (8 * 2 ^ i : ℤ).toNat)
        (initSolution v { blankState with cfl := cfl, c := 1 }
          (8 * 2 ^ i : ℤ).toNat mx my) (Nt * 2 ^ i : ℤ).toNat
      rw [show errListOf v (D2 v (8 * 2 ^ i : ℤ).toNat)
          (initSolution v { blankState with cfl := cfl, c := 1 }
            (8 * 2 ^ i : ℤ).toNat mx my) (Nt * 2 ^ i : ℤ).toNat =
          runErrs v cfl (8 * 2 ^ i) (Nt * 2 ^ i) mx my from rfl, hnil] at hlen
      simp at hlen
      omega
    · rw [hE]
      rfl
  · intro i hi1 hi2
    have hlen : i - 1 < ((List.range' 1 (m - 1)).map (fun i =>
        Real.log
            (((List.range m).map
                (fun i => runLastErr v cfl (8 * 2 ^ i) (Nt * 2 ^ i) mx my)).getD (i - 1) 0 /
              ((List.range m).map
                (fun i => runLastErr v cfl (8 * 2 ^ i) (Nt * 2 ^ i) mx my)).getD i 0) /
          Real.log
            (((List.range m).map (fun i => 1 / ((8 * 2 ^ i : ℤ) : ℝ))).getD (i - 1) 0 /
              ((List.range m).map (fun i => 1 / ((8 * 2 ^ i : ℤ) : ℝ))).getD i 0))).length := by
      simp [List.length_range']
      omega
    rw [List.getD_eq_getElem _ _ hlen, List.getElem_map, List.getElem_range']
    have hidx : 1 + 1 * (i - 1) = i := by omega
    rw [hidx]

/-- Witness for C8 at `v = .dirichlet`, `m = 2`, `cfl = 1`, `Nt = 1`,
`mx = my = 1`. -/
theorem claim8_witness :
    (2 : ℕ) ≤ 2 ∧ (1 : ℤ) ≤ 1 ∧
    (∃ sF r E h, convergence_rates .dirichlet blankState 2 1 1 1 1 =
        .ok (sF, (r, E, h)) ∧
      E.length = 2 ∧ h.length = 2 ∧ r.length = 2 - 1 ∧
      (∀ i, i < 2 →
        E.getD i 0 = runLastErr .dirichlet 1 (8 * 2 ^ i) (1 * 2 ^ i) 1 1 ∧
        h.getD i 0 = 1 / ((8 * 2 ^ i : ℤ) : ℝ) ∧
        ∃ sF2, call .dirichlet blankState (8 * 2 ^ i) (1 * 2 ^ i) 1 1 1 1 (-1) =
          .ok (sF2, .errPair (h.getD i 0)
            (some (runErrs .dirichlet 1 (8 * 2 ^ i) (1 * 2 ^ i) 1 1))) ∧
          runErrs .dirichlet 1 (8 * 2 ^ i) (1 * 2 ^ i) 1 1 ≠ [] ∧
          (runErrs .dirichlet 1 (8 * 2 ^ i) (1 * 2 ^ i) 1 1).getLast?.getD 0 =
            E.getD i 0) ∧
      (∀ i, 1 ≤ i → i ≤ 2 - 1 →
        r.getD (i - 1) 0 =
          Real.log (E.getD (i - 1) 0 / E.getD i 0) /
            Real.log (h.getD (i - 1) 0 / h.getD i 0))) :=
  ⟨by decide, by decide,
    claim8_convergence_rates .dirichlet blankState 2 1 1 1 1
      (by decide) (by decide)⟩

/-- C5 counterexample: a call with `N = 4 ≥ 1` but `Nt = 0 ≤ 0` does
not fail fast: it completes normally and returns the error-mode pair with
an *empty* error sequence — no configuration error is raised. -/
theorem claim5_counterexample :
    resultIsOk (call .dirichlet blankState 4 0 (1/2) 1 2 3 (-1)) = true ∧
    returnedErrs (call .dirichlet blankState 4 0 (1/2) 1 2 3 (-1)) =
      some (some []) := ⟨rfl, rfl⟩

/-- C5 amended: only an invalid *resolution* fails fast: `N = 0`
raises `ZeroDivisionError` at `dx = 1.0/N` during mesh creation and
`N < 0` raises `ValueError` (in `np.linspace` for `N ≤ -2`, in
`sparse.diags` for `N = -1`).  A nonpositive step count is not validated:
with `N ≥ 1` and `Nt ≤ 0` the call completes normally with zero time
steps, returning an empty error sequence in error mode and the
step-0-only snapshot mapping in snapshot mode. -/
theorem claim5_amended (v : Variant) (s : State) (N Nt : ℤ) (cfl c : ℝ)
    (mx my k : ℤ) :
    (N = 0 → ∀ sd, call v s N Nt cfl c mx my sd = .error .zeroDivisionError) ∧
    (N < 0 → ∀ sd, call v s N Nt cfl c mx my sd = .error .valueError) ∧
    (1 ≤ N → Nt ≤ 0 →
      call v s N Nt cfl c mx my (-1) =
        .ok (initSolution v { s with cfl := cfl, c := c } N.toNat mx my,
          .errPair (1 / (N : ℝ)) (some [])) ∧
      (0 < k → call v s N Nt cfl c mx my k =
        .ok (initSolution v { s with cfl := cfl, c := c } N.toNat mx my,
          .snaps [(0,
            (initSolution v { s with cfl := cfl, c := c } N.toNat mx my).unm1)]))) := by
  refine ⟨?_, ?_, ?_⟩
  · intro hN0 sd
    subst hN0
    simp [call]
  · intro hNneg sd
    by_cases h1 : N + 1 < 0
    · simp [call, h1]
    · simp [call, h1, hNneg, show N ≠ 0 by omega]
  · intro hN hNt
    have hNt0 : Nt.toNat = 0 := by omega
    constructor
    · rw [call_errMode v s N Nt cfl c mx my hN, hNt0]
      simp [errListOf]
    · intro hk
      rw [call_snapMode v s N Nt cfl c mx my k hN hk, hNt0]
      simp [snapListOf]

/-- Witness for C5 (amended) at each of the three cases. -/
theorem claim5_witness :
    call .dirichlet blankState 0 5 1 1 1 1 (-1) = .error .zeroDivisionError ∧
    call .dirichlet blankState (-3) 5 1 1 1 1 7 = .error .valueError ∧
    call .dirichlet blankState 4 0 1 1 2 3 (-1) =
      .ok (initSolution .dirichlet { blankState with cfl := 1, c := 1 }
          (4 : ℤ).toNat 2 3,
        .errPair (1 / ((4 : ℤ) : ℝ)) (some [])) ∧
    call .dirichlet blankState 4 (-2) 1 1 2 3 2 =
      .ok (initSolution .dirichlet { blankState with cfl := 1, c := 1 }
          (4 : ℤ).toNat 2 3,
        .snaps [(0, (initSolution .dirichlet { blankState with cfl := 1, c := 1 }
          (4 : ℤ).toNat 2 3).unm1)]) :=
  ⟨(claim5_amended .dirichlet blankState 0 5 1 1 1 1 1).1 rfl (-1),
   (claim5_amended .dirichlet blankState (-3) 5 1 1 1 1 1).2.1 (by decide) 7,
   ((claim5_amended .dirichlet blankState 4 0 1 1 2 3 2).2.2
     (by decide) (by decide)).1,
   ((claim5_amended .dirichlet blankState 4 (-2) 1 1 2 3 2).2.2
     (by decide) (by decide)).2 (by decide)⟩

/-- C10: in snapshot mode the field stored under key `0` is the
initialization field `U^{n-1}`, i.e. the exact solution evaluated at time
`t = -dt` — and not (in general) the field at time `t = 0`: at
`mx = my = 1`, `N = 2`, `cfl = 1/2`, `c = 1` the two differ at the mesh
centre. -/
theorem claim10_snapshot_zero (v : Variant) (s : State) (N Nt : ℤ)
    (cfl c : ℝ) (mx my k : ℤ) (hN : 1 ≤ N) (hk : 0 < k) :
    let s1 := initSolution v { s with cfl := cfl, c := c } N.toNat mx my
    let D := D2 v N.toNat
    (∃ d, call v s N Nt cfl c mx my k =
        .ok (states v D s1 Nt.toNat, .snaps d) ∧
      d.head? = some (0, s1.unm1) ∧
      ∀ i j : ℕ, s1.unm1 i j =
        ue v s1 mx my ((i : ℝ) / (N : ℝ)) ((j : ℝ) / (N : ℝ)) (-(dt s1))) ∧
    (initSolution .dirichlet { blankState with cfl := 1/2, c := 1 } 2 1 1).unm1 1 1 ≠
      (initSolution .dirichlet { blankState with cfl := 1/2, c := 1 } 2 1 1).un 1 1 := by
  intro s1 D
  constructor
  · refine ⟨snapListOf v D s1 k Nt.toNat,
      call_snapMode v s N Nt cfl c mx my k hN hk, rfl, ?_⟩
    intro i j
    rw [← toNat_cast_real N (by omega)]
    rfl
  · have hs2 : Real.sqrt 2 < 8 := by
      nlinarith [Real.sq_sqrt (show (0:ℝ) ≤ 2 by norm_num), Real.sqrt_nonneg 2]
    have hs2p : 0 < Real.sqrt 2 := Real.sqrt_pos.mpr (by norm_num)
    have hπ := Real.pi_pos
    intro heq
    simp only [initSolution, create_mesh, ue, w, dt, blankState] at heq
    norm_num at heq
    have hsin : Real.sin (π * (1 / 2)) = 1 := by
      rw [show π * (1 / 2) = π / 2 by ring, Real.sin_pi_div_two]
    rw [hsin] at heq
    norm_num at heq
    rw [Real.cos_eq_one_iff_of_lt_of_lt (by nlinarith) (by nlinarith)] at heq
    nlinarith

/-- Witness for C10 at `v = .dirichlet`, `N = Nt = 1`, `cfl = c = 1`,
`mx = my = 1`, `k = 1`. -/
theorem claim10_witness :
    (1 : ℤ) ≤ 1 ∧ (0 : ℤ) < 1 ∧
    (let s1 := initSolution .dirichlet { blankState with cfl := 1, c := 1 }
        (1 : ℤ).toNat 1 1
     let D := D2 .dirichlet (1 : ℤ).toNat
     (∃ d, call .dirichlet blankState 1 1 1 1 1 1 1 =
        .ok (states .dirichlet D s1 (1 : ℤ).toNat, .snaps d) ∧
       d.head? = some (0, s1.unm1) ∧
       ∀ i j : ℕ, s1.unm1 i j =
         ue .dirichlet s1 1 1 ((i : ℝ) / ((1 : ℤ) : ℝ)) ((j : ℝ) / ((1 : ℤ) : ℝ))
           (-(dt s1))) ∧
     (initSolution .dirichlet { blankState with cfl := 1/2, c := 1 } 2 1 1).unm1 1 1 ≠
       (initSolution .dirichlet { blankState with cfl := 1/2, c := 1 } 2 1 1).un 1 1) :=
  ⟨by decide, by decide,
    claim10_snapshot_zero .dirichlet blankState 1 1 1 1 1 1 1
      (by decide) (by decide)⟩

/-- C6: for the Dirichlet variant, every field in the returned snapshot
mapping — the step-0 field included — vanishes on all four edge
rows/columns of the grid (for integer mode numbers `mx`, `my`). -/
theorem claim6_dirichlet_boundary (s : State) (N Nt : ℤ) (cfl c : ℝ)
    (mx my k : ℤ) (hN : 1 ≤ N) (hNt : 1 ≤ Nt) (hk : 0 < k) :
    let s1 := initSolution .dirichlet { s with cfl := cfl, c := c } N.toNat mx my
    let D := D2 .dirichlet N.toNat
    ∃ d, call .dirichlet s N Nt cfl c mx my k =
        .ok (states .dirichlet D s1 Nt.toNat, .snaps d) ∧
      ∀ p ∈ d, ∀ i j : ℕ,
        (i = 0 ∨ i = N.toNat ∨ j = 0 ∨ j = N.toNat) → p.2 i j = 0 := by
  intro s1 D
  refine ⟨snapListOf .dirichlet D s1 k Nt.toNat,
    call_snapMode .dirichlet s N Nt cfl c mx my k hN hk, ?_⟩
  intro p hp i j hij
  rcases List.mem_cons.mp hp with hp | hp
  · subst hp
    exact initSolution_unm1_edge _ N.toNat (by omega) mx my i j hij
  · obtain ⟨m, hm, rfl⟩ := List.mem_map.mp hp
    obtain ⟨im, him, rfl⟩ := List.mem_range'.mp (List.mem_of_mem_filter hm)
    show (states .dirichlet D s1 (1 + 1 * im)).un i j = 0
    have hidx : 1 + 1 * im = im + 1 := by omega
    rw [hidx]
    exact states_un_edge D s1 im i j hij

/-- Witness for C6 at `N = Nt = 1`, `cfl = c = 1`, `mx = my = 1`, `k = 1`. -/
theorem claim6_witness :
    (1 : ℤ) ≤ 1 ∧ (0 : ℤ) < 1 ∧
    (let s1 := initSolution .dirichlet { blankState with cfl := 1, c := 1 }
        (1 : ℤ).toNat 1 1
     let D := D2 .dirichlet (1 : ℤ).toNat
     ∃ d, call .dirichlet blankState 1 1 1 1 1 1 1 =
        .ok (states .dirichlet D s1 (1 : ℤ).toNat, .snaps d) ∧
       ∀ p ∈ d, ∀ i j : ℕ,
         (i = 0 ∨ i = (1 : ℤ).toNat ∨ j = 0 ∨ j = (1 : ℤ).toNat) → p.2 i j = 0) :=
  ⟨by decide, by decide,
    claim6_dirichlet_boundary blankState 1 1 1 1 1 1 1
      (by decide) (by decide) (by decide)⟩

/-- C2: mode exclusivity.  With `N ≥ 1`, `Nt ≥ 1`: a call with
`store_data = -1` returns exactly the pair `(dx, errors)` — never a
snapshot mapping — where the error sequence has length `Nt` and entry `n`
is the root-mean-square difference between the post-step field and the
exact solution at time `n·dt`; a call with `store_data = k > 0` returns
exactly a snapshot mapping — never an error sequence — whose key list is
`0` followed by every `n ∈ [1, Nt]` with `n % k == 0`. -/
theorem claim2_mode_exclusivity (v : Variant) (s : State) (N Nt : ℤ)
    (cfl c : ℝ) (mx my k : ℤ) (hN : 1 ≤ N) (hNt : 1 ≤ Nt) (hk : 0 < k) :
    let s1 := initSolution v { s with cfl := cfl, c := c } N.toNat mx my
    let D := D2 v N.toNat
    (∃ errs, call v s N Nt cfl c mx my (-1) =
        .ok (states v D s1 Nt.toNat, .errPair (1 / (N : ℝ)) (some errs)) ∧
      errs.length = Nt.toNat ∧
      (∀ n, 1 ≤ n → n ≤ Nt.toNat →
        errs.getD (n - 1) 0 =
          Real.sqrt
            ((∑ i ∈ Finset.range (N.toNat + 1), ∑ j ∈ Finset.range (N.toNat + 1),
                ((states v D s1 n).un i j -
                  ue v s1 mx my ((i : ℝ) / (N : ℝ)) ((j : ℝ) / (N : ℝ))
                    ((n : ℝ) * dt s1)) ^ 2) /
              (((N : ℝ) + 1) * ((N : ℝ) + 1))))) ∧
    (∃ d, call v s N Nt cfl c mx my k =
        .ok (states v D s1 Nt.toNat, .snaps d) ∧
      d.map Prod.fst = 0 :: (List.range' 1 Nt.toNat).filter
        (fun (n : ℕ) => decide ((n : ℤ) % k = 0))) := by
  intro s1 D
  constructor
  · refine ⟨errListOf v D s1 Nt.toNat, call_errMode v s N Nt cfl c mx my hN, ?_, ?_⟩
    · show (errListOf v D s1 Nt.toNat).length = Nt.toNat
      rw [errListOf, List.length_map, List.length_range']
    · intro n hn1 hn2
      show (errListOf v D s1 Nt.toNat).getD (n - 1) 0 = _
      have hlen : n - 1 < (errListOf v D s1 Nt.toNat).length := by
        rw [errListOf, List.length_map, List.length_range']; omega
      rw [List.getD_eq_getElem _ _ hlen]
      simp only [errListOf, List.getElem_map, List.getElem_range']
      have hidx : 1 + 1 * (n - 1) = n := by omega
      rw [hidx, dt_states]
      exact l2_error_at_state v s N cfl c mx my (by omega) n _ _
  · refine ⟨snapListOf v D s1 k Nt.toNat,
      call_snapMode v s N Nt cfl c mx my k hN hk, ?_⟩
    show (snapListOf v D s1 k Nt.toNat).map Prod.fst = _
    rw [snapListOf]
    rw [List.map_cons, List.map_map]
    have hfst : (Prod.fst ∘ fun (n : ℕ) => (n, (states v D s1 n).un)) = id := rfl
    rw [hfst, List.map_id]
    have hfilter : (List.range' 1 Nt.toNat).filter
          (fun (n : ℕ) => decide (0 < k ∧ (n : ℤ) % k = 0)) =
        (List.range' 1 Nt.toNat).filter (fun (n : ℕ) => decide ((n : ℤ) % k = 0)) := by
      apply List.filter_congr
      intro a _
      simp [hk]
    rw [hfilter]

/-- Witness for C2 at `v = .dirichlet`, `N = Nt = 1`, `cfl = c = 1`,
`mx = my = 1`, `k = 1`. -/
theorem claim2_witness :
    (1 : ℤ) ≤ 1 ∧ (0 : ℤ) < 1 ∧
    (let s1 := initSolution .dirichlet { blankState with cfl := 1, c := 1 }
        (1 : ℤ).toNat 1 1
     let D := D2 .dirichlet (1 : ℤ).toNat
     (∃ errs, call .dirichlet blankState 1 1 1 1 1 1 (-1) =
        .ok (states .dirichlet D s1 (1 : ℤ).toNat,
          .errPair (1 / ((1 : ℤ) : ℝ)) (some errs)) ∧
       errs.length = (1 : ℤ).toNat ∧
       (∀ n, 1 ≤ n → n ≤ (1 : ℤ).toNat →
         errs.getD (n - 1) 0 =
           Real.sqrt
             ((∑ i ∈ Finset.range ((1 : ℤ).toNat + 1),
                 ∑ j ∈ Finset.range ((1 : ℤ).toNat + 1),
                 ((states .dirichlet D s1 n).un i j -
                   ue .dirichlet s1 1 1 ((i : ℝ) / ((1 : ℤ) : ℝ))
                     ((j : ℝ) / ((1 : ℤ) : ℝ)) ((n : ℝ) * dt s1)) ^ 2) /
               ((((1 : ℤ) : ℝ) + 1) * (((1 : ℤ) : ℝ) + 1))))) ∧
     (∃ d, call .dirichlet blankState 1 1 1 1 1 1 1 =
        .ok (states .dirichlet D s1 (1 : ℤ).toNat, .snaps d) ∧
       d.map Prod.fst = 0 :: (List.range' 1 (1 : ℤ).toNat).filter
         (fun (n : ℕ) => decide ((n : ℤ) % 1 = 0)))) :=
  ⟨by decide, by decide,
    claim2_mode_exclusivity .dirichlet blankState 1 1 1 1 1 1 1
      (by decide) (by decide) (by decide)⟩

/-- C1: for every run with `N ≥ 1`, `Nt ≥ 1`, `cfl > 0`, `c > 0`:
the Courant number satisfies `c*dt/dx = cfl` exactly; the call returns the
state obtained by applying the loop body exactly `Nt` times to the
initialized state; and each step computes
`U_next = 2*U_curr - U_prev + cfl²·(Laplacian · U_curr)`, applies the
variant's boundary enforcement to `U_next`, and rotates
`U_prev ← U_curr`, `U_curr ← U_next`. -/
theorem claim1_leapfrog (v : Variant) (s : State) (N Nt : ℤ) (cfl c : ℝ)
    (mx my sd : ℤ) (hN : 1 ≤ N) (hNt : 1 ≤ Nt) (hcfl : 0 < cfl) (hc : 0 < c) :
    let s1 := initSolution v { s with cfl := cfl, c := c } N.toNat mx my
    let D := D2 v N.toNat
    (c * dt s1 / s1.dx = cfl ∧ s1.dx = s1.dy) ∧
    (∃ out, call v s N Nt cfl c mx my sd = .ok (states v D s1 Nt.toNat, out) ∧
      (Nt.toNat : ℤ) = Nt) ∧
    (∀ n, (states v D s1 n).cfl = cfl ∧
      (states v D s1 (n + 1)).unm1 = (states v D s1 n).un ∧
      (states v D s1 (n + 1)).un =
        (apply_bcs v { states v D s1 n with unp1 := (fun i j =>
          2 * (states v D s1 n).un i j - (states v D s1 n).unm1 i j +
            (states v D s1 n).cfl ^ 2 *
              lapApply D (states v D s1 n).n ((states v D s1 n).un) i j) }).unp1) := by
  refine ⟨⟨?_, rfl⟩, ?_, ?_⟩
  · have hxpos : (0 : ℝ) < ((N.toNat : ℕ) : ℝ) := by
      have h1 : 1 ≤ N.toNat := by omega
      exact_mod_cast Nat.lt_of_lt_of_le Nat.zero_lt_one h1
    show c * dt (initSolution v { s with cfl := cfl, c := c } N.toNat mx my) /
      (initSolution v { s with cfl := cfl, c := c } N.toNat mx my).dx = cfl
    rw [dt, initSolution_cfl, initSolution_c, initSolution_dx, initSolution_dy,
      min_self]
    show c * (cfl * (1 / ((N.toNat : ℕ) : ℝ)) / c) / (1 / ((N.toNat : ℕ) : ℝ)) = cfl
    field_simp
    ring
  · by_cases hsd : 0 < sd
    · exact ⟨_, call_snapMode v s N Nt cfl c mx my sd hN hsd, by omega⟩
    · by_cases hsd' : sd = -1
      · subst hsd'
        exact ⟨_, call_errMode v s N Nt cfl c mx my hN, by omega⟩
      · exact ⟨_, call_noneMode v s N Nt cfl c mx my sd hN hsd hsd', by omega⟩
  · intro n
    refine ⟨?_, ?_, ?_⟩
    · rw [states_cfl, initSolution_cfl]
    · rw [states_succ, stepOnce_unm1]
    · rw [states_succ, stepOnce_un]

/-- Witness for C1 at `v = .dirichlet`, `N = Nt = 1`, `cfl = c = 1`,
`mx = my = 1`, `store_data = -1`. -/
theorem claim1_witness :
    (1 : ℤ) ≤ 1 ∧ (0 : ℝ) < 1 ∧
    (let s1 := initSolution .dirichlet { blankState with cfl := 1, c := 1 }
        (1 : ℤ).toNat 1 1
     let D := D2 .dirichlet (1 : ℤ).toNat
     ((1 : ℝ) * dt s1 / s1.dx = 1 ∧ s1.dx = s1.dy) ∧
     (∃ out, call .dirichlet blankState 1 1 1 1 1 1 (-1) =
        .ok (states .dirichlet D s1 (1 : ℤ).toNat, out) ∧
       ((1 : ℤ).toNat : ℤ) = 1) ∧
     (∀ n, (states .dirichlet D s1 n).cfl = 1 ∧
       (states .dirichlet D s1 (n + 1)).unm1 = (states .dirichlet D s1 n).un ∧
       (states .dirichlet D s1 (n + 1)).un =
         (apply_bcs .dirichlet { states .dirichlet D s1 n with unp1 := (fun i j =>
           2 * (states .dirichlet D s1 n).un i j -
             (states .dirichlet D s1 n).unm1 i j +
             (states .dirichlet D s1 n).cfl ^ 2 *
               lapApply D (states .dirichlet D s1 n).n
               ((states .dirichlet D s1 n).un) i j) }).unp1)) :=
  ⟨by decide, one_pos,
    claim1_leapfrog .dirichlet blankState 1 1 1 1 1 1 (-1)
      (by decide) (by decide) one_pos one_pos⟩

end WaveSpec
